import Mathlib

/-!
Verification development for the GitCode PR report scripts
(`tools/gitcode_pr_multi_repo.py` and `tools/gitcode_pr_report_site.py`).

The Python and embedded JavaScript functions under scrutiny are shallowly
embedded as executable Lean definitions.  Text is handled as `List Char`
with explicitly defined lower-casing, trimming, prefix and substring
operations mirroring Python `str.lower` / `str.strip` / `str.startswith` /
`in`, and JavaScript `toLowerCase` / `trim` / `startsWith` / `includes`
(all texts involved are ASCII).
-/

/-- Lower-case every character; models Python `str.lower` and JavaScript
`toLowerCase` on ASCII text. -/
def toLowerL (l : List Char) : List Char := l.map Char.toLower

/-- Drop leading and trailing whitespace; models Python `str.strip` and
JavaScript `trim`. -/
def trimL (l : List Char) : List Char :=
  ((l.dropWhile Char.isWhitespace).reverse.dropWhile Char.isWhitespace).reverse

/-- Boolean prefix test on characters; models `str.startswith`. -/
def isPrefixL : List Char → List Char → Bool
  | [], _ => true
  | _ :: _, [] => false
  | a :: as, b :: bs => a == b && isPrefixL as bs

/-- Boolean substring test (`needle` occurs inside the second list); models
JavaScript `String.prototype.includes`. -/
def hasSubL (needle : List Char) : List Char → Bool
  | [] => isPrefixL needle []
  | c :: rest => isPrefixL needle (c :: rest) || hasSubL needle rest

/-- The character list underlying a string (`String.toList`); kept as a
named function so that rewriting stays syntactic. -/
def strChars (s : String) : List Char := s.data

/-- A raw JSON field value as far as the scripts inspect it: a boolean, a
string, JSON null, or anything else (numbers, arrays, objects), which the
scripts treat uniformly. -/
inductive JVal where
  | jb : Bool → JVal
  | js : String → JVal
  | jnull : JVal
  | jother : JVal
deriving DecidableEq

/-- A raw comment record as consumed by `_infer_resolved`: the `resolved`
and `status` keys, each either absent (`none`) or present with a value. -/
structure RawComment where
  resolved : Option JVal
  status : Option JVal
deriving DecidableEq

/-- String values of `resolved` that map to `True` in `_infer_resolved`. -/
def trueResolvedStrings : List (List Char) :=
  ["true".toList, "1".toList, "yes".toList, "resolved".toList]

/-- String values of `resolved` that map to `False` in `_infer_resolved`. -/
def falseResolvedStrings : List (List Char) :=
  ["false".toList, "0".toList, "no".toList, "unresolved".toList]

/-- String values of `status` that map to `True` in `_infer_resolved`. -/
def trueStatusStrings : List (List Char) := ["resolved".toList, "done".toList]

/-- String values of `status` that map to `False` in `_infer_resolved`. -/
def falseStatusStrings : List (List Char) :=
  ["unresolved".toList, "open".toList, "todo".toList]

/-- The trailing `status` block of `_infer_resolved` (both scripts contain
the identical function): consulted when the `resolved` key did not settle
the answer. -/
def infer_from_status (status : Option JVal) : Option Bool :=
  match status with
  | some (JVal.js s) =>
    let v := toLowerL (strChars s)
    if v ∈ trueStatusStrings then some true
    else if v ∈ falseStatusStrings then some false
    else none
  | _ => none

/-- `_infer_resolved(comment)` from both scripts: a boolean `resolved` wins;
a recognised string `resolved` wins; otherwise the `status` key is
consulted. -/
def infer_resolved (c : RawComment) : Option Bool :=
  match c.resolved with
  | some (JVal.jb b) => some b
  | some (JVal.js s) =>
    let v := toLowerL (strChars s)
    if v ∈ trueResolvedStrings then some true
    else if v ∈ falseResolvedStrings then some false
    else infer_from_status c.status
  | some JVal.jnull => infer_from_status c.status
  | some JVal.jother => infer_from_status c.status
  | none => infer_from_status c.status

/-- The prefix `wip` tested by `is_wip_title`. -/
def wipPrefix1 : List Char := "wip".toList

/-- The prefix `[wip]` tested by `is_wip_title`. -/
def wipPrefix2 : List Char := "[wip]".toList

/-- The prefix `wip:` tested by `is_wip_title`. -/
def wipPrefix3 : List Char := "wip:".toList

/-- `is_wip_title(title)` from `gitcode_pr_report_site.py`: empty titles are
not WIP; otherwise the stripped, lower-cased title is tested against the
prefixes `wip`, `[wip]` and `wip:`. -/
def is_wip_title (title : String) : Bool :=
  if strChars title == [] then false
  else
    let t := toLowerL (trimL (strChars title))
    isPrefixL wipPrefix1 t || isPrefixL wipPrefix2 t || isPrefixL wipPrefix3 t

/-- A raw PR record from the list endpoint, restricted to the fields the
listing loops inspect.  `work_in_progress` and `draft` are raw JSON fields
(`pr.get(...) is True` in the source). -/
structure RawPR where
  number : Nat
  title : String
  work_in_progress : Option JVal
  draft : Option JVal
  state : String
deriving DecidableEq

/-- Listing-loop state: retained records (standing for the constructed
`PRInfo` values, whose field projection is irrelevant here) and the
`seen_numbers` set. -/
structure ListState where
  prs : List RawPR
  seen : List Nat
deriving DecidableEq

/-- One iteration of the record loop in `fetch_prs_for_user` of
`gitcode_pr_report_site.py`: skip on `work_in_progress`/`draft` flags, then
on a WIP title, then de-duplicate by number; otherwise retain. -/
def site_list_step (st : ListState) (pr : RawPR) : ListState :=
  if pr.work_in_progress == some (JVal.jb true) || pr.draft == some (JVal.jb true) then st
  else if is_wip_title pr.title then st
  else if st.seen.contains pr.number then st
  else ⟨st.prs ++ [pr], pr.number :: st.seen⟩

/-- Records retained by the site lister from a stream of raw records. -/
def site_list_records (records : List RawPR) : List RawPR :=
  (records.foldl site_list_step ⟨[], []⟩).prs

/-- One iteration of the record loop in `fetch_prs_for_user` of
`gitcode_pr_multi_repo.py`: only de-duplication by number, no WIP
filtering of any kind. -/
def multi_list_step (st : ListState) (pr : RawPR) : ListState :=
  if st.seen.contains pr.number then st
  else ⟨st.prs ++ [pr], pr.number :: st.seen⟩

/-- Records retained by the multi-repo lister from a stream of raw
records. -/
def multi_list_records (records : List RawPR) : List RawPR :=
  (records.foldl multi_list_step ⟨[], []⟩).prs

/-- The state list actually queried by `fetch_prs_for_user` in
`gitcode_pr_report_site.py`: a state list containing `all` among several
entries collapses to just `all`. -/
def site_states_to_query (states : List String) : List String :=
  if "all" ∈ states ∧ 1 < states.length then ["all"] else states

/-- The state list actually queried by `fetch_prs_for_user` in
`gitcode_pr_multi_repo.py`: the loop iterates `repo_cfg.states` directly,
with no collapse rule. -/
def multi_states_to_query (states : List String) : List String := states

/-- Helper: a prefix test against a concatenation implies the test against
the left part alone. -/
theorem isPrefixL_of_append (xs ys l : List Char)
    (h : isPrefixL (xs ++ ys) l = true) : isPrefixL xs l = true := by
  induction xs generalizing l with
  | nil => simp [isPrefixL]
  | cons a as ih =>
    cases l with
    | nil => simp [isPrefixL] at h
    | cons b bs =>
      simp only [List.cons_append, isPrefixL, Bool.and_eq_true] at h ⊢
      exact ⟨h.1, ih bs h.2⟩


/-- Helper: nesting three skip-conditions is the same as testing their
disjunction. -/
theorem if_or_three {α : Type} (a b c : Bool) (s x : α) :
    (if a then s else if b then s else if c then s else x) =
      (if a || b || c then s else x) := by
  cases a <;> cases b <;> cases c <;> simp

/-- Helper: the recognised false-strings for `resolved` are not among the
recognised true-strings. -/
theorem false_resolved_not_true (v : List Char) (h : v ∈ falseResolvedStrings) :
    v ∉ trueResolvedStrings := by
  fin_cases h <;> decide

/-- Helper: the recognised false-strings for `status` are not among the
recognised true-strings. -/
theorem false_status_not_true (v : List Char) (h : v ∈ falseStatusStrings) :
    v ∉ trueStatusStrings := by
  fin_cases h <;> decide

/-- Claim C4: `infer_resolved` follows the ordered precedence: a boolean
`resolved` is returned directly; a recognised string `resolved` is mapped
after case normalisation; only when `resolved` is absent or unmappable
(null, number, or unrecognised string) is `status` consulted, with its own
mapping on strings and `none` otherwise.  In particular
`resolved = "false"` beats `status = "resolved"`, and `status = "done"`
alone yields `true`. -/
theorem infer_resolved_precedence :
    (∀ (b : Bool) (st : Option JVal),
      infer_resolved ⟨some (JVal.jb b), st⟩ = some b) ∧
    (∀ (s : String) (st : Option JVal), toLowerL (strChars s) ∈ trueResolvedStrings →
      infer_resolved ⟨some (JVal.js s), st⟩ = some true) ∧
    (∀ (s : String) (st : Option JVal), toLowerL (strChars s) ∈ falseResolvedStrings →
      infer_resolved ⟨some (JVal.js s), st⟩ = some false) ∧
    (∀ (s : String) (st : Option JVal),
      toLowerL (strChars s) ∉ trueResolvedStrings →
      toLowerL (strChars s) ∉ falseResolvedStrings →
      infer_resolved ⟨some (JVal.js s), st⟩ = infer_from_status st) ∧
    (∀ st : Option JVal, infer_resolved ⟨none, st⟩ = infer_from_status st ∧
      infer_resolved ⟨some JVal.jnull, st⟩ = infer_from_status st ∧
      infer_resolved ⟨some JVal.jother, st⟩ = infer_from_status st) ∧
    (∀ s : String, toLowerL (strChars s) ∈ trueStatusStrings →
      infer_from_status (some (JVal.js s)) = some true) ∧
    (∀ s : String, toLowerL (strChars s) ∈ falseStatusStrings →
      infer_from_status (some (JVal.js s)) = some false) ∧
    (∀ s : String, toLowerL (strChars s) ∉ trueStatusStrings →
      toLowerL (strChars s) ∉ falseStatusStrings →
      infer_from_status (some (JVal.js s)) = none) ∧
    (infer_from_status none = none ∧ infer_from_status (some JVal.jnull) = none ∧
      infer_from_status (some JVal.jother) = none ∧
      ∀ b : Bool, infer_from_status (some (JVal.jb b)) = none) ∧
    (infer_resolved ⟨some (JVal.js "false"), some (JVal.js "resolved")⟩ = some false ∧
      infer_resolved ⟨none, some (JVal.js "done")⟩ = some true) := by
  refine ⟨fun b st => rfl, ?_, ?_, ?_, fun st => ⟨rfl, rfl, rfl⟩, ?_, ?_, ?_,
    ⟨rfl, rfl, rfl, fun b => rfl⟩, by decide, by decide⟩
  · intro s st h
    show (if toLowerL (strChars s) ∈ trueResolvedStrings then some true
      else if toLowerL (strChars s) ∈ falseResolvedStrings then some false
      else infer_from_status st) = some true
    rw [if_pos h]
  · intro s st h
    have hnt := false_resolved_not_true _ h
    show (if toLowerL (strChars s) ∈ trueResolvedStrings then some true
      else if toLowerL (strChars s) ∈ falseResolvedStrings then some false
      else infer_from_status st) = some false
    rw [if_neg hnt, if_pos h]
  · intro s st h1 h2
    show (if toLowerL (strChars s) ∈ trueResolvedStrings then some true
      else if toLowerL (strChars s) ∈ falseResolvedStrings then some false
      else infer_from_status st) = infer_from_status st
    rw [if_neg h1, if_neg h2]
  · intro s h
    show (if toLowerL (strChars s) ∈ trueStatusStrings then some true
      else if toLowerL (strChars s) ∈ falseStatusStrings then some false
      else none) = some true
    rw [if_pos h]
  · intro s h
    have hnt := false_status_not_true _ h
    show (if toLowerL (strChars s) ∈ trueStatusStrings then some true
      else if toLowerL (strChars s) ∈ falseStatusStrings then some false
      else none) = some false
    rw [if_neg hnt, if_pos h]
  · intro s h1 h2
    show (if toLowerL (strChars s) ∈ trueStatusStrings then some true
      else if toLowerL (strChars s) ∈ falseStatusStrings then some false
      else none) = none
    rw [if_neg h1, if_neg h2]

/-- Witness for C4: applies the precedence theorem at the concrete record
with `resolved = "Yes"`. -/
theorem infer_resolved_precedence_witness :
    infer_resolved ⟨some (JVal.js "Yes"), some (JVal.js "open")⟩ = some true :=
  infer_resolved_precedence.2.1 "Yes" (some (JVal.js "open")) (by decide)

/-- Helper: the third WIP prefix test is absorbed by the first. -/
theorem wip_prefix_absorb (l : List Char) :
    (isPrefixL wipPrefix1 l || isPrefixL wipPrefix2 l || isPrefixL wipPrefix3 l)
      = (isPrefixL wipPrefix1 l || isPrefixL wipPrefix2 l) := by
  cases hc : isPrefixL wipPrefix3 l with
  | false => rw [Bool.or_false]
  | true =>
    have he : wipPrefix3 = wipPrefix1 ++ [':'] := by decide
    have ha : isPrefixL wipPrefix1 l = true := by
      refine isPrefixL_of_append wipPrefix1 [':'] l ?_
      rw [← he]; exact hc
    simp [ha]

/-- Helper: folding the multi-repo listing step over records with pairwise
distinct, previously unseen numbers retains every record in order. -/
theorem multi_fold_keeps (records : List RawPR) :
    ∀ st : ListState,
    (∀ r ∈ records, st.seen.contains r.number = false) →
    records.Pairwise (fun a b => a.number ≠ b.number) →
    records.foldl multi_list_step st =
      ⟨st.prs ++ records, (records.map (fun r => r.number)).reverse ++ st.seen⟩ := by
  induction records with
  | nil => intro st _ _; simp
  | cons r rs ih =>
    intro st h1 h2
    have hnot : st.seen.contains r.number = false := h1 r (List.mem_cons_self r rs)
    have hstep : multi_list_step st r = ⟨st.prs ++ [r], r.number :: st.seen⟩ := by
      unfold multi_list_step
      rw [if_neg (show ¬ st.seen.contains r.number = true by simpa using hnot)]
    rw [List.foldl_cons, hstep]
    rw [ih ⟨st.prs ++ [r], r.number :: st.seen⟩ ?_ (List.Pairwise.of_cons h2)]
    · simp
    · intro x hx
      have hne : r.number ≠ x.number := (List.pairwise_cons.mp h2).1 x hx
      have hx2 : st.seen.contains x.number = false := h1 x (List.mem_cons_of_mem r hx)
      simp only [List.contains_cons, Bool.or_eq_false_iff]
      constructor
      · simpa [beq_iff_eq] using fun he => hne he.symm
      · exact hx2

/-- Claim C5 (amended): the site lister skips a raw record exactly when
`work_in_progress` or `draft` is literally `true`, when its stripped
lower-cased title starts with `wip` or `[wip]` (the `wip:` form is
subsumed by the `wip` prefix), or when its number was already seen;
`Multiwipe thing` is retained.  The multi-repo lister applies no WIP
filtering at all: it retains every record with a fresh number. -/
theorem wip_filtering_semantics :
    (∀ t : String, is_wip_title t =
      (isPrefixL wipPrefix1 (toLowerL (trimL (strChars t))) ||
        isPrefixL wipPrefix2 (toLowerL (trimL (strChars t))))) ∧
    (∀ (st : ListState) (pr : RawPR), site_list_step st pr =
      if pr.work_in_progress == some (JVal.jb true) || pr.draft == some (JVal.jb true)
          || is_wip_title pr.title || st.seen.contains pr.number then st
      else ⟨st.prs ++ [pr], pr.number :: st.seen⟩) ∧
    (∀ records : List RawPR, records.Pairwise (fun a b => a.number ≠ b.number) →
      multi_list_records records = records) ∧
    is_wip_title "Multiwipe thing" = false ∧
    site_list_records [⟨5, "Multiwipe thing", none, none, "open"⟩] =
      [⟨5, "Multiwipe thing", none, none, "open"⟩] := by
  refine ⟨?_, ?_, ?_, by decide, by decide⟩
  · intro t
    unfold is_wip_title
    by_cases ht : (strChars t == []) = true
    · rw [if_pos ht]
      have h0 : strChars t = [] := by simpa using ht
      rw [h0]
      decide
    · rw [if_neg ht]
      exact wip_prefix_absorb (toLowerL (trimL (strChars t)))
  · intro st pr
    unfold site_list_step
    exact if_or_three _ _ _ _ _
  · intro records hpw
    unfold multi_list_records
    rw [multi_fold_keeps records ⟨[], []⟩ (fun r _ => rfl) hpw]
    simp

/-- Witness for C5: applies the amended theorem to a concrete two-record
stream with distinct numbers. -/
theorem wip_filtering_semantics_witness :
    multi_list_records [⟨1, "a", none, none, "open"⟩, ⟨2, "b", none, none, "m"⟩] =
      [⟨1, "a", none, none, "open"⟩, ⟨2, "b", none, none, "m"⟩] :=
  wip_filtering_semantics.2.2.1 _ (by decide)

/-- Counterexample for C5 as stated: the site lister excludes the record
titled `[wip] fix build` although its stripped lower-cased title does not
start with `wip` and it carries no WIP or draft flag, and the multi-repo
lister retains a record carrying both `work_in_progress: true` and
`draft: true` and a `WIP:` title. -/
theorem wip_filtering_claim_fails :
    site_list_records [⟨1, "[wip] fix build", none, none, "open"⟩] = [] ∧
    isPrefixL wipPrefix1 (toLowerL (trimL (strChars "[wip] fix build"))) = false ∧
    multi_list_records
        [⟨2, "WIP: thing", some (JVal.jb true), some (JVal.jb true), "open"⟩] =
      [⟨2, "WIP: thing", some (JVal.jb true), some (JVal.jb true), "open"⟩] := by
  refine ⟨by decide, by decide, by decide⟩

/-- Claim C6 (amended): the site lister collapses a state list containing
`all` among several entries to just `all`, and otherwise queries the
configured states in order; the multi-repo lister always queries the
configured states in order, with no collapse rule. -/
theorem states_collapse_semantics :
    (∀ states : List String, "all" ∈ states → 1 < states.length →
      site_states_to_query states = ["all"]) ∧
    (∀ states : List String, ("all" ∉ states ∨ states.length ≤ 1) →
      site_states_to_query states = states) ∧
    (∀ states : List String, multi_states_to_query states = states) := by
  refine ⟨?_, ?_, fun _ => rfl⟩
  · intro s h1 h2
    unfold site_states_to_query
    rw [if_pos ⟨h1, h2⟩]
  · intro s h
    unfold site_states_to_query
    rw [if_neg]
    rintro ⟨hm, hl⟩
    rcases h with h | h
    · exact h hm
    · omega

/-- Witness for C6: the collapse applied to the concrete list
`["all", "open"]`. -/
theorem states_collapse_semantics_witness :
    site_states_to_query ["all", "open"] = ["all"] :=
  states_collapse_semantics.1 ["all", "open"] (by decide) (by decide)

/-- Counterexample for C6 as stated: the multi-repo lister queries both
entries of `["all", "open"]` in order instead of collapsing to `["all"]`. -/
theorem states_collapse_claim_fails :
    multi_states_to_query ["all", "open"] = ["all", "open"] ∧
    multi_states_to_query ["all", "open"] ≠ ["all"] :=
  ⟨rfl, by decide⟩

/-- A review comment of the multi-repo script: `resolved` is tri-state
(`none` models Python `None`). -/
structure CommentM where
  id : Nat
  resolved : Option Bool
deriving DecidableEq

/-- A PR of the multi-repo script, restricted to the fields that
`print_report_for_user` filters on. -/
structure PRInfoM where
  number : Nat
  state : String
  comments : List CommentM
deriving DecidableEq

/-- The `hide_clean_prs` pre-filter of `print_report_for_user` in
`gitcode_pr_multi_repo.py`: when the flag is set, only PRs with at least
one comment whose `resolved` is exactly `False` stay visible; the state is
never consulted. -/
def print_report_visible_prs (hide_clean_prs : Bool) (prs : List PRInfoM) :
    List PRInfoM :=
  if hide_clean_prs then
    prs.filter (fun pr => pr.comments.any (fun cm => cm.resolved == some false))
  else prs

/-- `shouldHidePr` of the embedded `applyFilters` in
`gitcode_pr_report_site.py`: the disjunction of the per-category rejections
plus the hide-clean clause, which requires a non-`open` state and no
unresolved parent comments.  `state` is the raw `data-state` value, lowered
as in the script; `hasUnresolved` is `unresolvedCount > 0`. -/
def shouldHidePr (stateAllowed commentAllowed dateAllowed issueAllowed
    typeAllowed targetAllowed keywordAllowed hideClean : Bool)
    (state : String) (unresolvedCount : Nat) : Bool :=
  !stateAllowed || !commentAllowed || !dateAllowed || !issueAllowed ||
    !typeAllowed || !targetAllowed || !keywordAllowed ||
    (hideClean && !(toLowerL (strChars state) == strChars "open") &&
      !(decide (0 < unresolvedCount)))

/-- Claim C1 (amended): in the HTML report client filter, with every other
category allowing the PR, `hide_clean` hides it exactly when its state is
not `open` and it has no unresolved parent comments, and for an `open`
state the flag never changes the outcome; the terminal renderer of
`gitcode_pr_multi_repo.py` instead hides every PR without an unresolved
comment, whatever its state. -/
theorem hide_clean_semantics :
    (∀ (hc : Bool) (state : String) (n : Nat),
      shouldHidePr true true true true true true true hc state n =
        (hc && !(toLowerL (strChars state) == strChars "open") &&
          !(decide (0 < n)))) ∧
    (∀ (sa ca da ia ta ga ka hc : Bool) (state : String) (n : Nat),
      toLowerL (strChars state) = strChars "open" →
      shouldHidePr sa ca da ia ta ga ka hc state n =
        shouldHidePr sa ca da ia ta ga ka false state n) ∧
    (∀ (prs : List PRInfoM) (pr : PRInfoM),
      pr ∈ print_report_visible_prs true prs ↔
        pr ∈ prs ∧ pr.comments.any (fun cm => cm.resolved == some false) = true) ∧
    (∀ prs : List PRInfoM, print_report_visible_prs false prs = prs) := by
  refine ⟨?_, ?_, ?_, fun prs => rfl⟩
  · intro hc state n
    simp [shouldHidePr]
  · intro sa ca da ia ta ga ka hc state n h
    simp [shouldHidePr, h]
  · intro prs pr
    unfold print_report_visible_prs
    rw [if_pos rfl]
    exact List.mem_filter

/-- Witness for C1: the open-state clause applied at a concrete card. -/
theorem hide_clean_semantics_witness :
    shouldHidePr true true true true true true true true "OPEN" 0 =
      shouldHidePr true true true true true true true false "OPEN" 0 :=
  hide_clean_semantics.2.1 true true true true true true true true "OPEN" 0
    (by decide)

/-- Counterexample for C1 as stated: the terminal renderer with
`hide_clean_prs` set hides an `open` PR that has no unresolved comments,
although the claim promises open PRs are never hidden by the flag in either
renderer. -/
theorem hide_clean_claim_fails :
    print_report_visible_prs true [⟨7, "open", []⟩] = [] ∧
    (⟨7, "open", []⟩ : PRInfoM).state = "open" := by
  refine ⟨by decide, rfl⟩

/-- A comment as rendered server-side in `build_html`: only the reply flag
and the tri-state resolution matter for the aggregate counts. -/
structure SComment where
  is_reply : Bool
  resolved : Option Bool
deriving DecidableEq

/-- Parent comments: `cm for cm in all_comments if not cm.is_reply`. -/
def parent_comments (cs : List SComment) : List SComment :=
  cs.filter (fun cm => !cm.is_reply)

/-- `unresolved_count` of `build_html`: parent comments whose `resolved` is
exactly `False`. -/
def unresolved_count (cs : List SComment) : Nat :=
  ((parent_comments cs).filter (fun cm => cm.resolved == some false)).length

/-- `resolved_count` of `build_html`: parent comments whose `resolved` is
exactly `True`. -/
def resolved_count (cs : List SComment) : Nat :=
  ((parent_comments cs).filter (fun cm => cm.resolved == some true)).length

/-- The JSON image of a tri-state resolution after serialisation
(`True`/`False`/`None` become `true`/`false`/`null`). -/
inductive JRes where
  | jtrue
  | jfalse
  | jnull
deriving DecidableEq

/-- A comment as the embedded client script sees it in the serialised
dataset. -/
structure JSComment where
  is_reply : Bool
  resolved : JRes
deriving DecidableEq

/-- JSON serialisation of a comment, as far as the client counts use it. -/
def serialize_comment (c : SComment) : JSComment :=
  ⟨c.is_reply,
    match c.resolved with
    | some true => JRes.jtrue
    | some false => JRes.jfalse
    | none => JRes.jnull⟩

/-- `parentComments` of the client-side `buildCardView`. -/
def js_parent_comments (cs : List JSComment) : List JSComment :=
  cs.filter (fun cm => !cm.is_reply)

/-- `unresolvedCount` of the client-side `buildCardView`:
`cm.resolved === false` on parents. -/
def js_unresolved_count (cs : List JSComment) : Nat :=
  ((js_parent_comments cs).filter (fun cm => cm.resolved == JRes.jfalse)).length

/-- `resolvedCount` of the client-side `buildCardView`:
`cm.resolved === true` on parents. -/
def js_resolved_count (cs : List JSComment) : Nat :=
  ((js_parent_comments cs).filter (fun cm => cm.resolved == JRes.jtrue)).length

/-- Claim C3: the aggregate unresolved and resolved counts count exactly
the parent comments whose resolution is exactly `false`, respectively
exactly `true`; replies and unknown-resolution parents never contribute;
and the client-side recomputation over the serialised dataset agrees with
the server-side Python counts. -/
theorem comment_counts_parent_only :
    (∀ cs : List SComment,
      js_unresolved_count (cs.map serialize_comment) = unresolved_count cs ∧
      js_resolved_count (cs.map serialize_comment) = resolved_count cs) ∧
    (∀ (cs : List SComment) (c : SComment), c.is_reply = true →
      unresolved_count (cs ++ [c]) = unresolved_count cs ∧
      resolved_count (cs ++ [c]) = resolved_count cs) ∧
    (∀ (cs : List SComment) (c : SComment), c.is_reply = false → c.resolved = none →
      unresolved_count (cs ++ [c]) = unresolved_count cs ∧
      resolved_count (cs ++ [c]) = resolved_count cs) ∧
    (∀ (cs : List SComment) (c : SComment), c.is_reply = false →
      c.resolved = some false →
      unresolved_count (cs ++ [c]) = unresolved_count cs + 1 ∧
      resolved_count (cs ++ [c]) = resolved_count cs) ∧
    (∀ (cs : List SComment) (c : SComment), c.is_reply = false →
      c.resolved = some true →
      resolved_count (cs ++ [c]) = resolved_count cs + 1 ∧
      unresolved_count (cs ++ [c]) = unresolved_count cs) := by
  refine ⟨?_, ?_, ?_, ?_, ?_⟩
  · intro cs
    induction cs with
    | nil => exact ⟨rfl, rfl⟩
    | cons c cs ih =>
      obtain ⟨ih1, ih2⟩ := ih
      rcases c with ⟨ir, res⟩
      cases ir <;> rcases res with _ | _ | _ <;>
        simp_all [js_unresolved_count, js_parent_comments, unresolved_count,
          parent_comments, js_resolved_count, resolved_count,
          serialize_comment, List.filter_cons]
  · intro cs c h
    constructor <;>
      simp [unresolved_count, resolved_count, parent_comments,
        List.filter_append, List.filter_cons, h]
  · intro cs c h1 h2
    constructor <;>
      simp [unresolved_count, resolved_count, parent_comments,
        List.filter_append, List.filter_cons, h1, h2]
  · intro cs c h1 h2
    constructor <;>
      simp [unresolved_count, resolved_count, parent_comments,
        List.filter_append, List.filter_cons, h1, h2]
  · intro cs c h1 h2
    constructor <;>
      simp [unresolved_count, resolved_count, parent_comments,
        List.filter_append, List.filter_cons, h1, h2]

/-- Witness for C3: appending a reply leaves the concrete counts of a
one-parent list unchanged. -/
theorem comment_counts_parent_only_witness :
    unresolved_count [⟨false, some false⟩, ⟨true, some false⟩] =
      unresolved_count [⟨false, some false⟩] ∧
    resolved_count [⟨false, some false⟩, ⟨true, some false⟩] =
      resolved_count [⟨false, some false⟩] :=
  comment_counts_parent_only.2.1 [⟨false, some false⟩] ⟨true, some false⟩ rfl

/-- The date-range gate of the embedded `applyFilters`: `startVal` and
`endVal` model the parsed filter bounds (`none` when the control is empty
or `Date.parse` returned NaN), `ts` models the parsed card timestamp
(`none` = NaN); all times in milliseconds.  This is the start-bound
conjunct. -/
def date_after_start : Option Int → Option Int → Bool
  | some f, some t => decide (f ≤ t)
  | _, _ => true

/-- The end-bound conjunct of the date gate: `createdTs <= to + 24h` when
both the bound and the timestamp parsed. -/
def date_before_end : Option Int → Option Int → Bool
  | some e, some t => decide (t ≤ e + 86400000)
  | _, _ => true

/-- The date gate itself: both conjuncts must pass. -/
def date_allowed (startVal endVal ts : Option Int) : Bool :=
  date_after_start startVal ts && date_before_end endVal ts

/-- Claim C7: characterisation of the client date filter.  Unparsable
timestamps and missing bounds never constrain, the start bound is an
inclusive lower bound, and the end bound admits timestamps up to and
including `end + 24h`; the final conjunct evaluates the filter at the
boundary input where the code keeps a PR that the specified exclusive
upper bound would drop. -/
theorem date_range_semantics :
    (∀ s e : Option Int, date_allowed s e none = true) ∧
    (∀ t : Int, date_allowed none none (some t) = true) ∧
    (∀ f e t : Int, date_allowed (some f) (some e) (some t) =
      (decide (f ≤ t) && decide (t ≤ e + 86400000))) ∧
    (∀ f t : Int, date_allowed (some f) none (some t) = decide (f ≤ t)) ∧
    (∀ e t : Int, date_allowed none (some e) (some t) =
      decide (t ≤ e + 86400000)) ∧
    (date_allowed none (some 0) (some 86400000) = true ∧
      ¬ (86400000 : Int) < 0 + 86400000) := by
  refine ⟨?_, fun t => rfl, fun f e t => rfl, ?_, ?_, by decide⟩
  · intro s e
    cases s <;> cases e <;> rfl
  · intro f t
    simp [date_allowed, date_after_start, date_before_end]
  · intro e t
    simp [date_allowed, date_after_start, date_before_end]

/-- A PR card as the client sort of `applyFilters` reads it from the DOM
dataset: timestamps already parsed (`none` = `Date.parse` NaN). -/
structure CardData where
  number : Nat
  state : String
  created : Option Int
  updated : Option Int
  unresolvedCount : Nat
deriving DecidableEq

/-- `parseDate` inside the client sort comparator: NaN becomes 0. -/
def parseDateJS (v : Option Int) : Int := v.getD 0

/-- The total preorder realised by the client `created` comparator
(`parseDate(b.created) - parseDate(a.created)`): `a` may stay before `b`
exactly when its parsed creation time is at least that of `b`. -/
def createdLe (a b : CardData) : Prop :=
  parseDateJS b.created ≤ parseDateJS a.created

/-- The total preorder realised by the client `updated` comparator. -/
def updatedLe (a b : CardData) : Prop :=
  parseDateJS b.updated ≤ parseDateJS a.updated

/-- The total preorder realised by the client `unresolved` comparator:
higher unresolved count first, ties by newer created. -/
def unresolvedLe (a b : CardData) : Prop :=
  b.unresolvedCount < a.unresolvedCount ∨
    (a.unresolvedCount = b.unresolvedCount ∧
      parseDateJS b.created ≤ parseDateJS a.created)

instance : DecidableRel createdLe := fun a b =>
  inferInstanceAs (Decidable (parseDateJS b.created ≤ parseDateJS a.created))

instance : DecidableRel updatedLe := fun a b =>
  inferInstanceAs (Decidable (parseDateJS b.updated ≤ parseDateJS a.updated))

instance : DecidableRel unresolvedLe := fun a b =>
  inferInstanceAs (Decidable (b.unresolvedCount < a.unresolvedCount ∨
    (a.unresolvedCount = b.unresolvedCount ∧
      parseDateJS b.created ≤ parseDateJS a.created)))

instance : IsTotal CardData createdLe :=
  ⟨fun a b => le_total (parseDateJS b.created) (parseDateJS a.created)⟩

instance : IsTrans CardData createdLe :=
  ⟨fun _ _ _ hab hbc => le_trans hbc hab⟩

instance : IsTotal CardData updatedLe :=
  ⟨fun a b => le_total (parseDateJS b.updated) (parseDateJS a.updated)⟩

instance : IsTrans CardData updatedLe :=
  ⟨fun _ _ _ hab hbc => le_trans hbc hab⟩

instance : IsTotal CardData unresolvedLe := by
  refine ⟨fun a b => ?_⟩
  rcases lt_trichotomy a.unresolvedCount b.unresolvedCount with h | h | h
  · exact Or.inr (Or.inl h)
  · rcases le_total (parseDateJS b.created) (parseDateJS a.created) with hc | hc
    · exact Or.inl (Or.inr ⟨h, hc⟩)
    · exact Or.inr (Or.inr ⟨h.symm, hc⟩)
  · exact Or.inl (Or.inl h)

instance : IsTrans CardData unresolvedLe := by
  refine ⟨fun a b c hab hbc => ?_⟩
  rcases hab with h1 | ⟨h1, h1c⟩ <;> rcases hbc with h2 | ⟨h2, h2c⟩
  · exact Or.inl (by omega)
  · exact Or.inl (by omega)
  · exact Or.inl (by omega)
  · exact Or.inr ⟨h1.trans h2, le_trans h2c h1c⟩

/-- The client re-sort of visible cards in `applyFilters`: a stable sort by
the selected comparator (`created` is also the fallback branch).
`List.insertionSort` realises the stable sort mandated for
`Array.prototype.sort`. -/
def sort_cards (sortKey : String) (cards : List CardData) : List CardData :=
  if sortKey == "updated" then List.insertionSort updatedLe cards
  else if sortKey == "unresolved" then List.insertionSort unresolvedLe cards
  else List.insertionSort createdLe cards

/-- A PR as `_pr_sort_key` of `build_html` reads it: state, parsed creation
timestamp (`_parse_ts` result) and number. -/
structure PRSortData where
  number : Nat
  state : String
  created_ts : Int
deriving DecidableEq

/-- The `state_rank` map of `_pr_sort_key`: `open` before `merged` before
everything else. -/
def state_rank (state : String) : Nat :=
  if toLowerL (strChars state) == strChars "open" then 0
  else if toLowerL (strChars state) == strChars "merged" then 1
  else 2

/-- The total preorder realised by Python `sorted(prs, key=_pr_sort_key)`:
ascending lexicographic order on `(state_rank, -created_ts, -number)`. -/
def prKeyLe (a b : PRSortData) : Prop :=
  state_rank a.state < state_rank b.state ∨
    (state_rank a.state = state_rank b.state ∧
      (b.created_ts < a.created_ts ∨
        (a.created_ts = b.created_ts ∧ b.number ≤ a.number)))

instance : DecidableRel prKeyLe := fun a b =>
  inferInstanceAs (Decidable (state_rank a.state < state_rank b.state ∨
    (state_rank a.state = state_rank b.state ∧
      (b.created_ts < a.created_ts ∨
        (a.created_ts = b.created_ts ∧ b.number ≤ a.number)))))

instance : IsTotal PRSortData prKeyLe := by
  refine ⟨fun a b => ?_⟩
  unfold prKeyLe
  rcases lt_trichotomy (state_rank a.state) (state_rank b.state) with h | h | h
  · exact Or.inl (Or.inl h)
  · rcases lt_trichotomy a.created_ts b.created_ts with hc | hc | hc
    · exact Or.inr (Or.inr ⟨h.symm, Or.inl hc⟩)
    · rcases le_total b.number a.number with hn | hn
      · exact Or.inl (Or.inr ⟨h, Or.inr ⟨hc, hn⟩⟩)
      · exact Or.inr (Or.inr ⟨h.symm, Or.inr ⟨hc.symm, hn⟩⟩)
    · exact Or.inl (Or.inr ⟨h, Or.inl hc⟩)
  · exact Or.inr (Or.inl h)

instance : IsTrans PRSortData prKeyLe := by
  refine ⟨fun a b c hab hbc => ?_⟩
  unfold prKeyLe at hab hbc ⊢
  rcases hab with h1 | ⟨h1, hc1⟩ <;> rcases hbc with h2 | ⟨h2, hc2⟩
  · exact Or.inl (by omega)
  · exact Or.inl (by omega)
  · exact Or.inl (by omega)
  · refine Or.inr ⟨h1.trans h2, ?_⟩
    rcases hc1 with hc1 | ⟨hc1, hn1⟩ <;> rcases hc2 with hc2 | ⟨hc2, hn2⟩
    · exact Or.inl (by omega)
    · exact Or.inl (by omega)
    · exact Or.inl (by omega)
    · exact Or.inr ⟨hc1.trans hc2, le_trans hn2 hn1⟩

/-- The server-side initial ordering `sorted(prs, key=_pr_sort_key)` of
`build_html`. -/
def sorted_prs (prs : List PRSortData) : List PRSortData :=
  List.insertionSort prKeyLe prs

/-- Claim C8 (amended): each client sort order emits a permutation of the
visible cards sorted by its comparator (`created` and `updated` newest
first, `unresolved` by descending count with newest-created ties), with
equal keys left in their previous relative order (stable sort, shown here
on a two-card tie); the server-side initial ordering sorts by state rank
(`open`, then `merged`, then others), then newest created, then higher PR
number. -/
theorem sort_orders_semantics :
    (∀ cards : List CardData,
      List.Sorted createdLe (sort_cards "created" cards) ∧
      (sort_cards "created" cards).Perm cards) ∧
    (∀ cards : List CardData,
      List.Sorted updatedLe (sort_cards "updated" cards) ∧
      (sort_cards "updated" cards).Perm cards) ∧
    (∀ cards : List CardData,
      List.Sorted unresolvedLe (sort_cards "unresolved" cards) ∧
      (sort_cards "unresolved" cards).Perm cards) ∧
    (∀ prs : List PRSortData,
      List.Sorted prKeyLe (sorted_prs prs) ∧ (sorted_prs prs).Perm prs) ∧
    (∀ a b : CardData, parseDateJS a.created = parseDateJS b.created →
      sort_cards "created" [a, b] = [a, b]) := by
  refine ⟨?_, ?_, ?_, ?_, ?_⟩
  · intro cards
    exact ⟨List.sorted_insertionSort createdLe cards,
      List.perm_insertionSort createdLe cards⟩
  · intro cards
    exact ⟨List.sorted_insertionSort updatedLe cards,
      List.perm_insertionSort updatedLe cards⟩
  · intro cards
    exact ⟨List.sorted_insertionSort unresolvedLe cards,
      List.perm_insertionSort unresolvedLe cards⟩
  · intro prs
    exact ⟨List.sorted_insertionSort prKeyLe prs,
      List.perm_insertionSort prKeyLe prs⟩
  · intro a b h
    show List.insertionSort createdLe [a, b] = [a, b]
    simp [List.insertionSort, List.orderedInsert, createdLe, h]

/-- Witness for C8: the stable created-tie clause at two concrete cards. -/
theorem sort_orders_semantics_witness :
    sort_cards "created" [⟨3, "open", some 5, none, 0⟩, ⟨4, "open", some 5, none, 1⟩] =
      [⟨3, "open", some 5, none, 0⟩, ⟨4, "open", some 5, none, 1⟩] :=
  sort_orders_semantics.2.2.2.2 ⟨3, "open", some 5, none, 0⟩
    ⟨4, "open", some 5, none, 1⟩ (by decide)

/-- Counterexample for C8 as stated: two cards with equal parsed created
timestamps where the card with the higher PR number comes second and the
client `created` sort keeps it second, although the claim promises ties
are broken by higher PR number first. -/
theorem sort_orders_claim_fails :
    sort_cards "created"
        [⟨1, "open", some 100, some 0, 0⟩, ⟨2, "merged", some 100, some 0, 0⟩] =
      [⟨1, "open", some 100, some 0, 0⟩, ⟨2, "merged", some 100, some 0, 0⟩] ∧
    (1 : Nat) < 2 := by
  exact ⟨by decide, by decide⟩

/-- The extension allow-list `CODE_STAT_SUFFIXES` of
`gitcode_pr_report_site.py`. -/
def CODE_STAT_SUFFIXES : List String := [".cj", ".c", ".cpp", ".h", ".md"]

/-- `os.path.basename`: the part of the path after the last slash. -/
def basenameL (l : List Char) : List Char :=
  ((l.reverse).takeWhile (fun c => !(c == '/'))).reverse

/-- `os.path.splitext` on a basename: split at the last dot provided some
earlier character of the name is not a dot (so dotfiles such as
`.gitignore` carry no extension); returns `(root, ext)`. -/
def splitextL (base : List Char) : List Char × List Char :=
  let rev := base.reverse
  let after := rev.takeWhile (fun c => !(c == '.'))
  if after.length == base.length then (base, [])
  else
    let root := (rev.drop (after.length + 1)).reverse
    if root.any (fun c => !(c == '.')) then (root, '.' :: after.reverse)
    else (base, [])

/-- `_ext_from_filename` of `gitcode_pr_report_site.py`: lower-cased
extension of the basename, the whole name for extension-less dotfiles, and
the sentinel `(no_ext)` otherwise. -/
def ext_from_filename (name : String) : String :=
  let base := basenameL (strChars name)
  if base == [] then "(no_ext)"
  else
    let pair := splitextL base
    if !(pair.2 == []) then ⟨toLowerL pair.2⟩
    else if isPrefixL ['.'] base && decide (1 < base.length) && !(pair.1 == []) then
      ⟨toLowerL base⟩
    else "(no_ext)"

/-- A file entry of the files endpoint after the integer coercions of
`fetch_files_for_pr`. -/
structure FileItem where
  name : String
  additions : Int
  deletions : Int
deriving DecidableEq

/-- One per-extension bucket of `file_stats`. -/
structure FileBucket where
  additions : Int
  deletions : Int
  files : Int
deriving DecidableEq

/-- Accumulator state of `fetch_files_for_pr`: running totals, the
`file_stats` association list in insertion order (`dict` preserves it),
and the `seen_items` de-duplication keys. -/
structure FileStatsState where
  total_add : Int
  total_del : Int
  total_files : Int
  stats : List (String × FileBucket)
  seen : List String
deriving DecidableEq

/-- The de-duplication key `f"{name}|{add}|{dele}"`. -/
def file_key (it : FileItem) : String :=
  it.name ++ "|" ++ toString it.additions ++ "|" ++ toString it.deletions

/-- `stats.setdefault(ext, ...)` followed by the three `+=` updates: bump
the existing bucket in place or append a fresh one at the end. -/
def update_bucket (stats : List (String × FileBucket)) (ext : String)
    (add dele : Int) : List (String × FileBucket) :=
  match stats with
  | [] => [(ext, ⟨add, dele, 1⟩)]
  | (e, b) :: rest =>
    if e == ext then (e, ⟨b.additions + add, b.deletions + dele, b.files + 1⟩) :: rest
    else (e, b) :: update_bucket rest ext add dele

/-- The body of the per-item loop of `fetch_files_for_pr`: skip seen keys,
record the key, and accumulate totals and the bucket only for allow-listed
extensions. -/
def process_file_item (st : FileStatsState) (it : FileItem) : FileStatsState :=
  if st.seen.contains (file_key it) then st
  else
    let st1 : FileStatsState := { st with seen := file_key it :: st.seen }
    let ext := ext_from_filename it.name
    if CODE_STAT_SUFFIXES.contains ext then
      { st1 with
        total_add := st1.total_add + it.additions,
        total_del := st1.total_del + it.deletions,
        total_files := st1.total_files + 1,
        stats := update_bucket st1.stats ext it.additions it.deletions }
    else st1

/-- The accumulation of `fetch_files_for_pr` over the de-duplicated stream
of file entries (the pagination only decides which entries are processed;
the state threads through unchanged). -/
def process_file_items (items : List FileItem) : FileStatsState :=
  items.foldl process_file_item ⟨0, 0, 0, [], []⟩

/-- Sum of the `additions` fields over all buckets. -/
def sum_bucket_adds (stats : List (String × FileBucket)) : Int :=
  (stats.map (fun p => p.2.additions)).sum

/-- Sum of the `deletions` fields over all buckets. -/
def sum_bucket_dels (stats : List (String × FileBucket)) : Int :=
  (stats.map (fun p => p.2.deletions)).sum

/-- Sum of the `files` fields over all buckets. -/
def sum_bucket_files (stats : List (String × FileBucket)) : Int :=
  (stats.map (fun p => p.2.files)).sum

/-- Helper: updating a bucket raises the three bucket sums by exactly the
contribution of the new file. -/
theorem update_bucket_sums (stats : List (String × FileBucket)) (ext : String)
    (add dele : Int) :
    sum_bucket_adds (update_bucket stats ext add dele) = sum_bucket_adds stats + add ∧
    sum_bucket_dels (update_bucket stats ext add dele) = sum_bucket_dels stats + dele ∧
    sum_bucket_files (update_bucket stats ext add dele) = sum_bucket_files stats + 1 := by
  induction stats with
  | nil =>
    refine ⟨?_, ?_, ?_⟩ <;>
      simp [update_bucket, sum_bucket_adds, sum_bucket_dels, sum_bucket_files]
  | cons p rest ih =>
    obtain ⟨i1, i2, i3⟩ := ih
    rcases p with ⟨e, b⟩
    by_cases he : (e == ext) = true
    · refine ⟨?_, ?_, ?_⟩ <;>
      · simp [update_bucket, he, sum_bucket_adds, sum_bucket_dels,
          sum_bucket_files]
        omega
    · refine ⟨?_, ?_, ?_⟩ <;>
      · simp [sum_bucket_adds, sum_bucket_dels, sum_bucket_files] at i1 i2 i3
        simp [update_bucket, he, sum_bucket_adds, sum_bucket_dels,
          sum_bucket_files, i1, i2, i3]
        omega

/-- Helper: the totals-equal-bucket-sums invariant is preserved by each
loop iteration of `fetch_files_for_pr`. -/
theorem process_file_item_invariant (st : FileStatsState) (it : FileItem)
    (h1 : st.total_add = sum_bucket_adds st.stats)
    (h2 : st.total_del = sum_bucket_dels st.stats)
    (h3 : st.total_files = sum_bucket_files st.stats) :
    (process_file_item st it).total_add = sum_bucket_adds (process_file_item st it).stats ∧
    (process_file_item st it).total_del = sum_bucket_dels (process_file_item st it).stats ∧
    (process_file_item st it).total_files = sum_bucket_files (process_file_item st it).stats := by
  unfold process_file_item
  by_cases hs : file_key it ∈ st.seen
  · simp [hs, h1, h2, h3]
  · by_cases hc : ext_from_filename it.name ∈ CODE_STAT_SUFFIXES
    · obtain ⟨u1, u2, u3⟩ :=
        update_bucket_sums st.stats (ext_from_filename it.name) it.additions it.deletions
      simp [hs, hc, u1, u2, u3, h1, h2, h3]
    · simp [hs, hc, h1, h2, h3]

/-- Claim C9: after processing any stream of file entries, the totals
`additions` / `deletions` / `changed_files` each equal the sum of the
corresponding field over all extension buckets of `file_stats`; a
de-duplicated entry whose derived extension is outside the allow-list
changes neither the totals nor any bucket; and the `(no_ext)` sentinel of
extension-less files is not allow-listed, so such files count nowhere
(`Makefile` shown concretely, and `README.md` lands in bucket `.md`). -/
theorem file_stats_totals_invariant :
    (∀ items : List FileItem,
      (process_file_items items).total_add =
        sum_bucket_adds (process_file_items items).stats ∧
      (process_file_items items).total_del =
        sum_bucket_dels (process_file_items items).stats ∧
      (process_file_items items).total_files =
        sum_bucket_files (process_file_items items).stats) ∧
    (∀ (st : FileStatsState) (it : FileItem),
      CODE_STAT_SUFFIXES.contains (ext_from_filename it.name) = false →
      (process_file_item st it).total_add = st.total_add ∧
      (process_file_item st it).total_del = st.total_del ∧
      (process_file_item st it).total_files = st.total_files ∧
      (process_file_item st it).stats = st.stats) ∧
    CODE_STAT_SUFFIXES.contains "(no_ext)" = false ∧
    ext_from_filename "Makefile" = "(no_ext)" ∧
    ext_from_filename "docs/README.md" = ".md" := by
  refine ⟨?_, ?_, by decide, by decide, by decide⟩
  · intro items
    suffices h : ∀ st : FileStatsState,
        st.total_add = sum_bucket_adds st.stats →
        st.total_del = sum_bucket_dels st.stats →
        st.total_files = sum_bucket_files st.stats →
        (items.foldl process_file_item st).total_add =
          sum_bucket_adds (items.foldl process_file_item st).stats ∧
        (items.foldl process_file_item st).total_del =
          sum_bucket_dels (items.foldl process_file_item st).stats ∧
        (items.foldl process_file_item st).total_files =
          sum_bucket_files (items.foldl process_file_item st).stats by
      exact h ⟨0, 0, 0, [], []⟩ rfl rfl rfl
    induction items with
    | nil => intro st h1 h2 h3; exact ⟨h1, h2, h3⟩
    | cons it items ih =>
      intro st h1 h2 h3
      obtain ⟨g1, g2, g3⟩ := process_file_item_invariant st it h1 h2 h3
      exact ih (process_file_item st it) g1 g2 g3
  · intro st it hc
    have hc2 : ext_from_filename it.name ∉ CODE_STAT_SUFFIXES := by simpa using hc
    unfold process_file_item
    by_cases hs : file_key it ∈ st.seen
    · simp [hs]
    · simp [hs, hc2]

/-- Witness for C9: the skip clause evaluated at the concrete extension-less
entry `Makefile` starting from the empty accumulator. -/
theorem file_stats_totals_invariant_witness :
    (process_file_item ⟨0, 0, 0, [], []⟩ ⟨"Makefile", 3, 4⟩).total_add = (0 : Int) ∧
    (process_file_item ⟨0, 0, 0, [], []⟩ ⟨"Makefile", 3, 4⟩).total_del = (0 : Int) ∧
    (process_file_item ⟨0, 0, 0, [], []⟩ ⟨"Makefile", 3, 4⟩).total_files = (0 : Int) ∧
    (process_file_item ⟨0, 0, 0, [], []⟩ ⟨"Makefile", 3, 4⟩).stats = [] :=
  file_stats_totals_invariant.2.1 ⟨0, 0, 0, [], []⟩ ⟨"Makefile", 3, 4⟩ (by decide)

/-- A rendered review item as the embedded `applyFilters` reads it from the
DOM: reply flag, `data-comment-id` and `data-parent-id` (empty string for a
missing attribute, which is falsy in the script), body text, and the
`data-resolved === 'true'` flag. -/
structure ReviewItem where
  is_reply : Bool
  comment_id : String
  parent_id : String
  body : String
  resolved : Bool
deriving DecidableEq

/-- The comment-level filter controls read by `applyFilters`: the raw
include and exclude keyword inputs and the three checkboxes. -/
structure ReviewFilter where
  keyword_input : String
  exclude_input : String
  only_unresolved : Bool
  only_resolved : Bool
  hide_replies : Bool
deriving DecidableEq

/-- The include keyword: `value.trim().toLowerCase()`. -/
def filter_keyword (p : ReviewFilter) : List Char :=
  toLowerL (trimL (strChars p.keyword_input))

/-- The exclude keyword: `value.trim()` (lowered later inside
`matchWholeWord`). -/
def filter_exclude (p : ReviewFilter) : List Char :=
  trimL (strChars p.exclude_input)

/-- `matchWholeWord(text, kw)` of `applyFilters`: an empty keyword matches
everything, otherwise a case-insensitive substring test. -/
def matchWholeWord (text kw : List Char) : Bool :=
  if kw == [] then true else hasSubL (toLowerL kw) (toLowerL text)

/-- `excludeHit`: only replies are tested against a non-empty exclude
keyword. -/
def excludeHit (p : ReviewFilter) (it : ReviewItem) : Bool :=
  it.is_reply && !(filter_exclude p == []) &&
    matchWholeWord (strChars it.body) (filter_exclude p)

/-- `matchesKeyword`: replies are tested against the include keyword;
parents count as matching only when no keyword is active. -/
def matchesKeyword (p : ReviewFilter) (it : ReviewItem) : Bool :=
  if it.is_reply then matchWholeWord (strChars it.body) (filter_keyword p)
  else filter_keyword p == []

/-- `baseVisible` of the first pass over review items. -/
def baseVisible (p : ReviewFilter) (it : ReviewItem) : Bool :=
  matchesKeyword p it && !(excludeHit p it) &&
    (!p.only_unresolved || !it.resolved) && (!p.only_resolved || it.resolved)

/-- The visibility set in the first pass (`visible`), which also applies
`hideReplies`. -/
def pass1Visible (p : ReviewFilter) (it : ReviewItem) : Bool :=
  baseVisible p it && !(p.hide_replies && it.is_reply)

/-- `parentResolvedMap` after the first pass: the resolution flag of the
last non-reply item carrying the given comment id (later entries
overwrite earlier ones). -/
def parentResolvedMap (items : List ReviewItem) (cid : String) : Option Bool :=
  (items.reverse.find? (fun it =>
    !it.is_reply && !(it.comment_id == "") && it.comment_id == cid)).map
    (fun it => it.resolved)

/-- `replyKeywordParents`: parent ids of replies matching the include
keyword. -/
def replyKeywordParents (p : ReviewFilter) (items : List ReviewItem) :
    List String :=
  (items.filter (fun it =>
    matchesKeyword p it && it.is_reply && !(it.parent_id == ""))).map
    (fun it => it.parent_id)

/-- `replyExcludeParents`: parent ids of replies hit by the exclude
keyword. -/
def replyExcludeParents (p : ReviewFilter) (items : List ReviewItem) :
    List String :=
  (items.filter (fun it =>
    excludeHit p it && it.is_reply && !(it.parent_id == ""))).map
    (fun it => it.parent_id)

/-- The second pass re-shows a parent whose id was collected in
`replyKeywordParents`, unless `only_unresolved` is active and the parent is
recorded as resolved. -/
def pulledIn (p : ReviewFilter) (items : List ReviewItem) (cid : String) : Bool :=
  !(cid == "") && (replyKeywordParents p items).contains cid &&
    !(p.only_unresolved && parentResolvedMap items cid == some true)

/-- Visibility after the keyword pull-in pass (replies are untouched by
it). -/
def visAfterPass2 (p : ReviewFilter) (items : List ReviewItem)
    (it : ReviewItem) : Bool :=
  if it.is_reply then pass1Visible p it
  else pass1Visible p it || pulledIn p items it.comment_id

/-- Visibility after the exclude pass: a parent whose id, or a reply whose
parent id, was collected in `replyExcludeParents` is hidden. -/
def visAfterPass3 (p : ReviewFilter) (items : List ReviewItem)
    (it : ReviewItem) : Bool :=
  if it.is_reply then
    visAfterPass2 p items it &&
      !(!(it.parent_id == "") && (replyExcludeParents p items).contains it.parent_id)
  else
    visAfterPass2 p items it &&
      !(!(it.comment_id == "") && (replyExcludeParents p items).contains it.comment_id)

/-- The `visibleParents` set once both visibility-granting passes ran: ids
of parents visible in the first pass plus ids re-shown by the pull-in
pass. -/
def visibleParentsFinal (p : ReviewFilter) (items : List ReviewItem) :
    List String :=
  (items.filter (fun it =>
    !it.is_reply && pass1Visible p it && !(it.comment_id == ""))).map
      (fun it => it.comment_id) ++
  (items.filter (fun it =>
    !it.is_reply && pulledIn p items it.comment_id)).map (fun it => it.comment_id)

/-- Final visibility of one review item after all four passes of
`applyFilters`: the last pass hides a reply whose parent id is absent from
`visibleParents`, unless `hideReplies` already settled replies. -/
def itemVisible (p : ReviewFilter) (items : List ReviewItem)
    (it : ReviewItem) : Bool :=
  if it.is_reply && !p.hide_replies && !(it.parent_id == "") &&
      !((visibleParentsFinal p items).contains it.parent_id) then false
  else visAfterPass3 p items it

/-- Claim C2 (amended): keyword matching is a case-insensitive substring
test applied to reply bodies only (with any active include keyword no
parent is base-visible, whatever its body says); a reply matching the
include keyword makes its parent visible provided no reply of that parent
hits the exclude keyword and, when `only_unresolved` is active, the parent
is not recorded as resolved; and a parent with any reply hit by the
exclude keyword is hidden together with all of its replies. -/
theorem keyword_filter_semantics :
    (∀ (p : ReviewFilter) (it : ReviewItem), it.is_reply = false →
      ¬(filter_keyword p = []) → pass1Visible p it = false) ∧
    (∀ (p : ReviewFilter) (it : ReviewItem), it.is_reply = true →
      matchesKeyword p it = matchWholeWord (strChars it.body) (filter_keyword p)) ∧
    (∀ text kw : List Char, ¬(kw = []) →
      matchWholeWord text kw = hasSubL (toLowerL kw) (toLowerL text)) ∧
    (∀ (p : ReviewFilter) (items : List ReviewItem) (par rep : ReviewItem),
      par.is_reply = false → ¬(par.comment_id = "") →
      rep ∈ items → rep.is_reply = true → rep.parent_id = par.comment_id →
      matchesKeyword p rep = true →
      (replyExcludeParents p items).contains par.comment_id = false →
      ¬(p.only_unresolved = true ∧
        parentResolvedMap items par.comment_id = some true) →
      itemVisible p items par = true) ∧
    (∀ (p : ReviewFilter) (items : List ReviewItem) (rep it : ReviewItem),
      rep ∈ items → excludeHit p rep = true → ¬(rep.parent_id = "") →
      ((it.is_reply = false → it.comment_id = rep.parent_id →
        itemVisible p items it = false) ∧
      (it.is_reply = true → it.parent_id = rep.parent_id →
        itemVisible p items it = false))) := by
  refine ⟨?_, ?_, ?_, ?_, ?_⟩
  · intro p it h hk
    have hm : matchesKeyword p it = false := by
      unfold matchesKeyword
      rw [if_neg (by simp [h])]
      simpa using hk
    simp [pass1Visible, baseVisible, hm]
  · intro p it h
    unfold matchesKeyword
    rw [if_pos h]
  · intro text kw hk
    unfold matchWholeWord
    rw [if_neg (by simpa using hk)]
  · intro p items par rep hpr hcid hmem hrr hpid hmk hnex hguard
    have hmemrkp : par.comment_id ∈ replyKeywordParents p items := by
      unfold replyKeywordParents
      refine List.mem_map.mpr ⟨rep, List.mem_filter.mpr ⟨hmem, ?_⟩, hpid⟩
      simp [hmk, hrr, hpid, hcid]
    have hg : (p.only_unresolved &&
        (parentResolvedMap items par.comment_id == some true)) = false := by
      cases hou : p.only_unresolved with
      | false => simp
      | true =>
        have hne : ¬(parentResolvedMap items par.comment_id = some true) :=
          fun hm2 => hguard ⟨hou, hm2⟩
        simp [hne]
    have hpull : pulledIn p items par.comment_id = true := by
      unfold pulledIn
      simp [hcid, hmemrkp, hg]
    unfold itemVisible
    rw [if_neg (by simp [hpr])]
    unfold visAfterPass3
    rw [if_neg (by simp [hpr])]
    unfold visAfterPass2
    rw [if_neg (by simp [hpr])]
    have hnex2 : par.comment_id ∉ replyExcludeParents p items := by simpa using hnex
    simp [hpull, hnex2]
  · intro p items rep it hmem hx hpidne
    have hrr : rep.is_reply = true := by
      have hx2 := hx
      unfold excludeHit at hx2
      simp only [Bool.and_eq_true] at hx2
      exact hx2.1.1
    have hmemX : rep.parent_id ∈ replyExcludeParents p items := by
      unfold replyExcludeParents
      refine List.mem_map.mpr ⟨rep, List.mem_filter.mpr ⟨hmem, ?_⟩, rfl⟩
      simp [hx, hrr, hpidne]
    constructor
    · intro hir hcid
      unfold itemVisible
      rw [if_neg (by simp [hir])]
      unfold visAfterPass3
      rw [if_neg (by simp [hir])]
      rw [hcid]
      simp [hmemX, hpidne]
    · intro hir hpid2
      by_cases hcond : (it.is_reply && !p.hide_replies && !(it.parent_id == "") &&
          !((visibleParentsFinal p items).contains it.parent_id)) = true
      · unfold itemVisible
        rw [if_pos hcond]
      · unfold itemVisible
        rw [if_neg hcond]
        unfold visAfterPass3
        rw [if_pos hir, hpid2]
        simp [hmemX, hpidne]

/-- Witness for C2: the pull-in clause at a concrete card where the parent
body does not contain the keyword but a reply does. -/
theorem keyword_filter_semantics_witness :
    itemVisible ⟨"regression", "", false, false, false⟩
      [⟨false, "10", "", "please fix", true⟩,
        ⟨true, "", "10", "a regression here", false⟩]
      ⟨false, "10", "", "please fix", true⟩ = true :=
  keyword_filter_semantics.2.2.2.1 ⟨"regression", "", false, false, false⟩
    [⟨false, "10", "", "please fix", true⟩,
      ⟨true, "", "10", "a regression here", false⟩]
    ⟨false, "10", "", "please fix", true⟩
    ⟨true, "", "10", "a regression here", false⟩
    rfl (by decide) (by decide) rfl rfl (by decide) (by decide) (by decide)

/-- Counterexample for C2 as stated: with `only_unresolved` checked, a
reply matching the include keyword `regression` does not make its resolved
parent visible, although the claim promises the parent of every matching
reply becomes visible. -/
theorem keyword_filter_claim_fails :
    matchesKeyword ⟨"regression", "", true, false, false⟩
      ⟨true, "", "10", "this is a regression", false⟩ = true ∧
    matchWholeWord (strChars "please fix")
      (filter_keyword ⟨"regression", "", true, false, false⟩) = false ∧
    itemVisible ⟨"regression", "", true, false, false⟩
      [⟨false, "10", "", "please fix", true⟩,
        ⟨true, "", "10", "this is a regression", false⟩]
      ⟨false, "10", "", "please fix", true⟩ = false := by
  refine ⟨by decide, by decide, by decide⟩

/-- Claim C10: with `hide_replies` off, a visible reply whose parent id is
present always has a visible rendered parent with that id: hiding a parent
for any reason hides its replies. -/
theorem reply_requires_visible_parent :
    ∀ (p : ReviewFilter) (items : List ReviewItem) (it : ReviewItem),
    p.hide_replies = false → it.is_reply = true → ¬(it.parent_id = "") →
    itemVisible p items it = true →
    ∃ par ∈ items, par.is_reply = false ∧ par.comment_id = it.parent_id ∧
      itemVisible p items par = true := by
  intro p items it hhr hir hpid hvis
  cases hcc : (visibleParentsFinal p items).contains it.parent_id with
  | false =>
    exfalso
    have hcc2 : it.parent_id ∉ visibleParentsFinal p items := by simpa using hcc
    have hcond : (it.is_reply && !p.hide_replies && !(it.parent_id == "") &&
        !((visibleParentsFinal p items).contains it.parent_id)) = true := by
      simp [hir, hhr, hpid, hcc2]
    unfold itemVisible at hvis
    rw [if_pos hcond] at hvis
    exact absurd hvis (by simp)
  | true =>
    have hcc2 : it.parent_id ∈ visibleParentsFinal p items := by simpa using hcc
    have hcond : ¬(it.is_reply && !p.hide_replies && !(it.parent_id == "") &&
        !((visibleParentsFinal p items).contains it.parent_id)) = true := by
      simp [hcc2]
    have hvis3 : visAfterPass3 p items it = true := by
      unfold itemVisible at hvis
      rwa [if_neg hcond] at hvis
    have hnex : it.parent_id ∉ replyExcludeParents p items := by
      have hv := hvis3
      unfold visAfterPass3 at hv
      rw [if_pos hir] at hv
      simp only [Bool.and_eq_true] at hv
      have h2 := hv.2
      intro hin
      simp [hpid, hin] at h2
    have hmem : it.parent_id ∈ visibleParentsFinal p items := hcc2
    unfold visibleParentsFinal at hmem
    rcases List.mem_append.mp hmem with hm | hm
    · rcases List.mem_map.mp hm with ⟨par, hpar_mem, hpar_cid⟩
      have hpar_in := (List.mem_filter.mp hpar_mem).1
      have hfc := (List.mem_filter.mp hpar_mem).2
      simp only [Bool.and_eq_true] at hfc
      obtain ⟨⟨hnr, hp1⟩, _⟩ := hfc
      have hnr2 : par.is_reply = false := by
        cases hb : par.is_reply
        · rfl
        · rw [hb] at hnr; exact absurd hnr (by decide)
      refine ⟨par, hpar_in, hnr2, hpar_cid, ?_⟩
      unfold itemVisible
      rw [if_neg (by simp [hnr2])]
      unfold visAfterPass3
      rw [if_neg (by simp [hnr2])]
      unfold visAfterPass2
      rw [if_neg (by simp [hnr2])]
      rw [hpar_cid]
      simp [hp1, hnex]
    · rcases List.mem_map.mp hm with ⟨par, hpar_mem, hpar_cid⟩
      have hpar_in := (List.mem_filter.mp hpar_mem).1
      have hfc := (List.mem_filter.mp hpar_mem).2
      simp only [Bool.and_eq_true] at hfc
      obtain ⟨hnr, hpull⟩ := hfc
      have hnr2 : par.is_reply = false := by
        cases hb : par.is_reply
        · rfl
        · rw [hb] at hnr; exact absurd hnr (by decide)
      have hpull2 : pulledIn p items it.parent_id = true := hpar_cid ▸ hpull
      refine ⟨par, hpar_in, hnr2, hpar_cid, ?_⟩
      unfold itemVisible
      rw [if_neg (by simp [hnr2])]
      unfold visAfterPass3
      rw [if_neg (by simp [hnr2])]
      unfold visAfterPass2
      rw [if_neg (by simp [hnr2])]
      rw [hpar_cid]
      simp [hpull2, hnex]

/-- Witness for C10: a concrete visible reply under a visible parent. -/
theorem reply_requires_visible_parent_witness :
    ∃ par ∈ [(⟨false, "1", "", "hi", false⟩ : ReviewItem),
        ⟨true, "", "1", "yo", false⟩],
      par.is_reply = false ∧
      par.comment_id = (⟨true, "", "1", "yo", false⟩ : ReviewItem).parent_id ∧
      itemVisible ⟨"", "", false, false, false⟩
        [⟨false, "1", "", "hi", false⟩, ⟨true, "", "1", "yo", false⟩] par = true :=
  reply_requires_visible_parent ⟨"", "", false, false, false⟩
    [⟨false, "1", "", "hi", false⟩, ⟨true, "", "1", "yo", false⟩]
    ⟨true, "", "1", "yo", false⟩ rfl rfl (by decide) (by decide)
